import Mathlib

/-!
Verification of the GeoPlegma DGGRS unification layer.

This file shallowly embeds the parts of the repository that the checked
properties are about: the zone-identifier model of the `api` and `dggrs`
crates (`HexString`, `ZoneId`, `RefinementLevel`, `RelativeDepth`, text
parsing and display), the Z3/Z7 bit-packed resolution decoders of the
DGGRID adapters, the `to_zones` output assemblers of the three backend
adapters, the polygon ring-closing builders, and effect models of the
DGGRID external-process calls (temp files and process execution).

Rust strings are modelled as `List Char` (every string these functions
touch is ASCII, where Rust's byte length equals the character count).
Rust `u64` is modelled as `Nat` with explicit `2 ^ 64` bounds where they
matter, `i32` as `Int` with explicit two's-complement wrapping where the
source can overflow. Fallible Rust functions return `Except`/`Option`.
-/

namespace GeoPlegma

/-- Equality of modelled `Result` values is decidable (used to evaluate the
embedded functions at concrete inputs). -/
instance {ε α : Type} [DecidableEq ε] [DecidableEq α] : DecidableEq (Except ε α) := fun a b =>
  match a, b with
  | .ok x, .ok y =>
    if h : x = y then .isTrue (by rw [h]) else .isFalse (by intro he; cases he; exact h rfl)
  | .ok _, .error _ => .isFalse (by intro he; cases he)
  | .error _, .ok _ => .isFalse (by intro he; cases he)
  | .error x, .error y =>
    if h : x = y then .isTrue (by rw [h]) else .isFalse (by intro he; cases he; exact h rfl)

/-- Rust `char::is_ascii_digit`: code point in `48..=57` (`'0'..='9'`). -/
def isAsciiDigit (c : Char) : Bool := decide (48 ≤ c.toNat ∧ c.toNat ≤ 57)

/-- Rust `char::is_ascii_hexdigit`: a decimal digit or `a..=f` / `A..=F`
(code points `97..=102` and `65..=70`). -/
def isAsciiHexdigit (c : Char) : Bool :=
  isAsciiDigit c || decide (97 ≤ c.toNat ∧ c.toNat ≤ 102)
    || decide (65 ≤ c.toNat ∧ c.toNat ≤ 70)

/-- Rust `char::to_digit` restricted to the radixes 10 and 16 used by this
codebase: decimal digits map to `0..9`, `a..f`/`A..F` to `10..15`, every
other character to the sentinel `99`, which is `≥ radix` for both radixes
and therefore rejected exactly like Rust's `None`. -/
def digitVal (c : Char) : Nat :=
  if 48 ≤ c.toNat ∧ c.toNat ≤ 57 then c.toNat - 48
  else if 97 ≤ c.toNat ∧ c.toNat ≤ 102 then c.toNat - 87
  else if 65 ≤ c.toNat ∧ c.toNat ≤ 70 then c.toNat - 55
  else 99

/-- The ASCII character of the decimal digit `d` (used to model Rust's
decimal `Display` for `u64`). -/
def digitChar (d : Nat) : Char := Char.ofNat (48 + d)

/-- Decimal rendering of an unsigned integer, as Rust's `Display for u64`
produces it: most-significant digit first, no sign, no leading zeros,
`"0"` for zero. -/
def natDecChars (n : Nat) : List Char :=
  if n = 0 then ['0'] else ((Nat.digits 10 n).map digitChar).reverse

/-- One leading `'+'` is consumed, as in Rust's `u64::from_str_radix`. -/
def stripPlus : List Char → List Char
  | [] => []
  | c :: rest => if c = '+' then rest else c :: rest

/-- Rust `u64::from_str_radix(s, radix)`: an optional leading `'+'`, then a
non-empty run of digits valid for `radix`; `None` models both Rust's
invalid-digit and overflow (`> u64::MAX`) errors. -/
def u64FromStrRadix (radix : Nat) (s : List Char) : Option Nat :=
  let t := stripPlus s
  if t = [] then none
  else if t.all (fun c => digitVal c < radix) then
    let v := t.foldl (fun acc c => acc * radix + digitVal c) 0
    if v < 2 ^ 64 then some v else none
  else none

/-- The ASCII fragment of Rust `char::is_whitespace`, used by `str::trim`.
The non-ASCII Unicode whitespace code points are all above `0x84` and are
not hex digits, so on the inputs considered here this is exact. -/
def isRustWhitespace (c : Char) : Bool :=
  decide (c.toNat = 32 ∨ (9 ≤ c.toNat ∧ c.toNat ≤ 13))

/-- Rust `str::trim`: strip whitespace from both ends. -/
def strTrim (s : List Char) : List Char :=
  ((s.dropWhile isRustWhitespace).reverse.dropWhile isRustWhitespace).reverse

/-! Basic facts about the character primitives. -/

end GeoPlegma

/-!
The zone-identifier model of the `api` crate (`src/api/src/models/common.rs`).
-/

namespace GeoPlegma.Api

/-- `DggrsError` (api crate), restricted to the variants reachable from the
embedded functions; message payloads are elided, numeric payloads kept. -/
inductive DggrsError
  | UnsupportedZoneIdFormat
  | InvalidHexId
  | DepthBelowZero (v : Int)
  | RelativeDepthBelowZero (v : Int)
  deriving Repr, DecidableEq

/-- `HexString` (api crate): a newtype over the stored text. -/
structure HexString where
  chars : List Char
  deriving Repr, DecidableEq

/-- api `HexString::new`: accepted iff `s.len() <= 16` and every character is
an ASCII hex digit (`s.len()` is the byte length; these strings are ASCII). -/
def HexString.new (s : List Char) : Except (List Char) HexString :=
  if s.length ≤ 16 ∧ s.all isAsciiHexdigit then
    .ok ⟨s⟩
  else
    .error ("HexId can have a maximum length of 16 hexadecimal characters.".toList)

/-- `ZoneId` (api crate): tagged identifier with three variants. -/
inductive ZoneId
  | StrId (s : List Char)
  | HexId (h : HexString)
  | IntId (n : Nat)
  deriving Repr, DecidableEq

/-- api `ZoneId::new_str`: 1 to 32 characters. -/
def ZoneId.new_str (s : List Char) : Except DggrsError ZoneId :=
  if 1 ≤ s.length ∧ s.length ≤ 32 then .ok (.StrId s)
  else .error .UnsupportedZoneIdFormat

/-- api `ZoneId::new_hex`: delegates validation to `HexString::new`. -/
def ZoneId.new_hex (s : List Char) : Except DggrsError ZoneId :=
  match HexString.new s with
  | .ok h => .ok (.HexId h)
  | .error _ => .error .InvalidHexId

/-- api `ZoneId::new_int`. -/
def ZoneId.new_int (n : Nat) : ZoneId := .IntId n

/-- api `impl FromStr for ZoneId`: trim, then pure-decimal text becomes
`IntId` (falling through on `u64` overflow), then hex-looking text becomes
`HexId` (falling back to `StrId` if `HexString` validation fails), and
anything else becomes `StrId`. -/
def ZoneId.from_str (s : List Char) : Except DggrsError ZoneId :=
  let t := strTrim s
  let tryInt : Option Nat :=
    if t ≠ [] ∧ t.all isAsciiDigit then u64FromStrRadix 10 t else none
  match tryInt with
  | some v => .ok (ZoneId.new_int v)
  | none =>
    let isHexish := t ≠ [] ∧ t.all isAsciiHexdigit
    if isHexish then
      match ZoneId.new_hex t with
      | .ok z => .ok z
      | .error _ => ZoneId.new_str t
    else ZoneId.new_str t

/-- api `impl fmt::Display for ZoneId`: each variant renders as its bare
textual form, `IntId` in decimal. -/
def ZoneId.display : ZoneId → List Char
  | .StrId s => s
  | .HexId h => h.chars
  | .IntId n => natDecChars n

/-- Two's-complement wrap of a mathematical integer into `i32`: the
release-mode behaviour of Rust's `+` on `i32` (a debug build would panic on
overflow; in neither mode does the sum saturate). -/
def wrap32 (x : Int) : Int := (x + 2 ^ 31) % 2 ^ 32 - 2 ^ 31

/-- `RefinementLevel` (api crate): newtype over `i32`. -/
structure RefinementLevel where
  val : Int
  deriving Repr, DecidableEq

/-- `RelativeDepth` (api crate): newtype over `i32`. -/
structure RelativeDepth where
  val : Int
  deriving Repr, DecidableEq

/-- api `RefinementLevel::new`: fails on negative input. -/
def RefinementLevel.new (value : Int) : Except DggrsError RefinementLevel :=
  if value < 0 then .error (.DepthBelowZero value) else .ok ⟨value⟩

def RefinementLevel.get (l : RefinementLevel) : Int := l.val

/-- api `RefinementLevel::new_const`: no validation (trusts the caller). -/
def RefinementLevel.new_const (val : Int) : RefinementLevel := ⟨val⟩

/-- api `impl TryFrom<i32> for RefinementLevel`: delegates to `new`. -/
def RefinementLevel.try_from (value : Int) : Except DggrsError RefinementLevel :=
  RefinementLevel.new value

/-- api `RelativeDepth::new`: fails on negative input. -/
def RelativeDepth.new (value : Int) : Except DggrsError RelativeDepth :=
  if value < 0 then .error (.RelativeDepthBelowZero value) else .ok ⟨value⟩

def RelativeDepth.get (d : RelativeDepth) : Int := d.val

/-- api `RelativeDepth::new_const`: no validation. -/
def RelativeDepth.new_const (val : Int) : RelativeDepth := ⟨val⟩

/-- api `impl TryFrom<i32> for RelativeDepth`: delegates to `new`. -/
def RelativeDepth.try_from (value : Int) : Except DggrsError RelativeDepth :=
  RelativeDepth.new value

/-- api `RefinementLevel::add`: `RefinementLevel::new(self.0 + rd.0)`, where
the `i32` addition wraps on overflow. -/
def RefinementLevel.add (l : RefinementLevel) (rd : RelativeDepth) :
    Except DggrsError RefinementLevel :=
  RefinementLevel.new (wrap32 (l.val + rd.val))

end GeoPlegma.Api

/-!
The zone-identifier model of the `dggrs` crate
(`src/dggrs/src/models/common.rs`): same shape as the api crate, but
`HexString::new` demands exactly 16 characters and the error enum is
`GeoPlegmaError`.
-/

namespace GeoPlegma.Dggrs

/-- `DggridError` (dggrs crate), the variant used by the Z3 decoder
(message payload elided). -/
inductive DggridError
  | InvalidZ3Format
  deriving Repr, DecidableEq

/-- `GeoPlegmaError` (dggrs crate), the variants reachable from the embedded
functions. `panicked` models a Rust panic — here only the
`u64::from_str_radix(...).unwrap()` on a hex payload that fails to parse. -/
inductive GeoPlegmaError
  | UnsupportedZoneIdFormat
  | InvalidHexId
  | DepthBelowZero (v : Int)
  | RelativeDepthBelowZero (v : Int)
  | Dggrid (e : DggridError)
  | RefinementLevelTooHigh
  | RefinementLevelPlusRelativeDepthLimitReached
  | CannotTranslateToH3Resolution
  | ResolutionLimitReached
  | InvalidZoneID
  | panicked
  deriving Repr, DecidableEq

/-- `HexString` (dggrs crate). -/
structure HexString where
  chars : List Char
  deriving Repr, DecidableEq

/-- dggrs `HexString::new`: accepted iff the length is exactly 16 and every
character is an ASCII hex digit. -/
def HexString.new (s : List Char) : Except (List Char) HexString :=
  if s.length = 16 ∧ s.all isAsciiHexdigit then
    .ok ⟨s⟩
  else
    .error ("HexId must be exactly 16 hexadecimal characters.".toList)

/-- `ZoneId` (dggrs crate). -/
inductive ZoneId
  | StrId (s : List Char)
  | HexId (h : HexString)
  | IntId (n : Nat)
  deriving Repr, DecidableEq

/-- dggrs `impl fmt::Display for ZoneId`. -/
def ZoneId.display : ZoneId → List Char
  | .StrId s => s
  | .HexId h => h.chars
  | .IntId n => natDecChars n

/-- `RefinementLevel` (dggrs crate). -/
structure RefinementLevel where
  val : Int
  deriving Repr, DecidableEq

/-- `RelativeDepth` (dggrs crate). -/
structure RelativeDepth where
  val : Int
  deriving Repr, DecidableEq

/-- dggrs `RefinementLevel::new`. -/
def RefinementLevel.new (value : Int) : Except GeoPlegmaError RefinementLevel :=
  if value < 0 then .error (.DepthBelowZero value) else .ok ⟨value⟩

def RefinementLevel.get (l : RefinementLevel) : Int := l.val

/-- dggrs `RelativeDepth::new`. -/
def RelativeDepth.new (value : Int) : Except GeoPlegmaError RelativeDepth :=
  if value < 0 then .error (.RelativeDepthBelowZero value) else .ok ⟨value⟩

def RelativeDepth.get (d : RelativeDepth) : Int := d.val

/-- dggrs `RefinementLevel::add`: `RefinementLevel::new(self.0 + rd.0)` with
wrapping `i32` addition. -/
def RefinementLevel.add (l : RefinementLevel) (rd : RelativeDepth) :
    Except GeoPlegmaError RefinementLevel :=
  RefinementLevel.new (Api.wrap32 (l.val + rd.val))

end GeoPlegma.Dggrs

/-!
The DGGRID adapters' bit-packed resolution decoders:
`get_refinement_level_from_z3_zone_id` (`adapters/dggrid/isea3h.rs`) and
`extract_res_from_z7` (`adapters/dggrid/igeo7.rs`).
-/

namespace GeoPlegma.Dggrid

open GeoPlegma.Dggrs

/-- The `i`-th (0-based) 2-bit Z3 digit of `v`: the source computes
`(v >> (60 - 2 * (i + 1))) & 0b11`; masking the low two bits is `% 4`. -/
def z3Digit (v i : Nat) : Nat := (v >>> (60 - 2 * (i + 1))) % 4

/-- The loop body of `get_refinement_level_from_z3_zone_id` over the digit
positions it still has to scan: an out-of-range digit is an error (dead,
since the mask bounds the digit by 3), the first digit equal to 3 is the
resolution, and a fully scanned list leaves the default of 30. -/
def z3Find (v : Nat) : List Nat → Except GeoPlegmaError Nat
  | [] => .ok 30
  | i :: rest =>
    if z3Digit v i > 3 then .error (.Dggrid .InvalidZ3Format)
    else if z3Digit v i = 3 then .ok i
    else z3Find v rest

/-- `get_refinement_level_from_z3_zone_id`: only a `HexId` is accepted, its
text is parsed as a base-16 `u64` (an unparseable payload makes the Rust
code panic via `unwrap()`), and the 30 two-bit digits below the top 4 bits
are scanned most-significant first. -/
def get_refinement_level_from_z3_zone_id (dggrid_z3_id : ZoneId) :
    Except GeoPlegmaError RefinementLevel :=
  match dggrid_z3_id with
  | .HexId h =>
    match u64FromStrRadix 16 h.chars with
    | none => .error .panicked
    | some v =>
      match z3Find v (List.range 30) with
      | .ok i => RefinementLevel.new (i : Int)
      | .error e => .error e
  | _ => .error (.Dggrid .InvalidZ3Format)

/-- Spec-side reading of the Z3 decoding sentence: the zero-based index of
the first 2-bit digit equal to 3 among the 30 digit positions of the low 60
bits, most significant first, or 30 when no digit equals 3. -/
def z3FirstPaddingIdx (v : Nat) : Nat :=
  ((List.range 30).find? fun i => z3Digit v i == 3).getD 30

/-- The error strings of `extract_res_from_z7` (`Result<u8, String>`),
as structured values. -/
inductive Z7Err
  | invalidHex
  | invalidBaseCell (b : Nat)
  | invalidDigit (d pos : Nat)
  deriving Repr, DecidableEq

/-- The optional `0x` / `0X` marker consumed by `extract_res_from_z7`. -/
def strip0x (s : List Char) : List Char :=
  match s with
  | '0' :: 'x' :: rest => rest
  | '0' :: 'X' :: rest => rest
  | _ => s

/-- The `i`-th (0-based) 3-bit Z7 digit of `v`:
`(v >> (60 - 3 * (i + 1))) & 0b111`, mask = `% 8`. -/
def z7Digit (v i : Nat) : Nat := (v >>> (60 - 3 * (i + 1))) % 8

/-- The scan loop of `extract_res_from_z7`: out-of-range digit is an error
(dead, by the mask), first digit equal to 7 is the resolution, default 20.
The source reports positions 1-based in its error message. -/
def z7Find (v : Nat) : List Nat → Except Z7Err Nat
  | [] => .ok 20
  | i :: rest =>
    if z7Digit v i > 7 then .error (.invalidDigit (z7Digit v i) (i + 1))
    else if z7Digit v i = 7 then .ok i
    else z7Find v rest

/-- `extract_res_from_z7` (igeo7.rs): strip an optional `0x`, parse base-16
into a `u64`, reject a base cell above 11 (`(v >> 60) & 0xF`, i.e. mod 16),
then scan the 20 three-bit digits. -/
def extract_res_from_z7 (dggrid_z7_id : List Char) : Except Z7Err Nat :=
  match u64FromStrRadix 16 (strip0x dggrid_z7_id) with
  | none => .error .invalidHex
  | some v =>
    if (v >>> 60) % 16 > 11 then .error (.invalidBaseCell ((v >>> 60) % 16))
    else z7Find v (List.range 20)

end GeoPlegma.Dggrid

/-!
Shared geometry and zone output model used by the three backend adapters.
The adapters construct `Zone` values with all-optional geometry fields, as
in `src/api/src/models/common.rs`. Floating-point coordinates are modelled
as rationals: the values handled here are finite, NaN-free latitudes and
longitudes, and the properties proved depend only on equality and list
structure, never on the arithmetic of the coordinate values.
-/

namespace GeoPlegma.Adapters

/-- Stand-in for `f64` coordinate/area values. -/
abbrev FloatV := Rat

/-- `geo::Coord<f64>`. -/
structure Coord where
  x : FloatV
  y : FloatV
  deriving Repr, DecidableEq, Inhabited

/-- `geo::Point<f64>`. -/
structure Point where
  x : FloatV
  y : FloatV
  deriving Repr, DecidableEq

/-- `geo::Polygon<f64>` as used by this code: an exterior ring and no
interior rings (`Polygon::new(LineString::from(coords), vec![])`). The
`geo` constructor would additionally close an unclosed ring on its own;
the ring is stored here exactly as handed over, so that the theorems
speak about the adapters' own closing step. -/
structure Polygon where
  exterior : List Coord
  deriving Repr, DecidableEq

/-- `Zone` as the adapters build it (api-crate `models/common.rs`): every
field but the identifier is optional. `vertex_count` is a `u32` in the
source; the counts are tiny, so plain `Nat` carries it. -/
structure Zone where
  id : Dggrs.ZoneId
  region : Option Polygon
  center : Option Point
  vertex_count : Option Nat
  children : Option (List Dggrs.ZoneId)
  neighbors : Option (List Dggrs.ZoneId)
  area_sqm : Option FloatV
  deriving Repr, DecidableEq

/-- `Zones`: the ordered result collection. -/
structure Zones where
  zones : List Zone
  deriving Repr, DecidableEq

/-- `DggrsPortConfig` (`ports/dggrs.rs`): boolean output switches. -/
structure DggrsPortConfig where
  region : Bool
  center : Bool
  vertex_count : Bool
  children : Bool
  neighbors : Bool
  area_sqm : Bool
  densify : Bool
  deriving Repr, DecidableEq

/-- `Default for DggrsPortConfig`: every switch on. -/
def DggrsPortConfig.default : DggrsPortConfig :=
  ⟨true, true, true, true, true, true, true⟩

end GeoPlegma.Adapters

/-!
The h3o (in-process) adapter: `adapters/h3o/common.rs` and
`adapters/h3o/h3.rs`. The h3o library itself is external; its calls are
abstracted as an `H3oBackend` record of functions, and the adapter logic
on top of them is translated from the source.
-/

namespace GeoPlegma.Dggrs

/-- dggrs `ZoneId::new_hex`: delegates validation to `HexString::new`. -/
def ZoneId.new_hex (s : List Char) : Except GeoPlegmaError ZoneId :=
  match HexString.new s with
  | .ok h => .ok (.HexId h)
  | .error _ => .error .InvalidHexId

end GeoPlegma.Dggrs

namespace GeoPlegma.H3o

open GeoPlegma.Adapters GeoPlegma.Dggrs

/-- `h3o::LatLng`. -/
structure LatLng where
  lat : FloatV
  lng : FloatV
  deriving Repr, DecidableEq

/-- The h3o library surface the adapter calls, as abstract data: cells are
`u64` cell indexes, `cellToString` is the hex `Display` of `CellIndex`,
`resolution` the cell's resolution (`0..=15`), `childrenOf cell r` the
children at resolution `r`, `gridDisk` the single-ring `grid_disk(1)`, and
`geodesicArea` the `geo` crate's `geodesic_area_unsigned`. -/
structure H3oBackend where
  cellToString : Nat → List Char
  boundary : Nat → List LatLng
  centroid : Nat → LatLng
  resolution : Nat → Nat
  childrenOf : Nat → Nat → List Nat
  gridDisk : Nat → List Nat
  geodesicArea : Polygon → FloatV

/-- h3o `Resolution::succ()`: `None` at the maximum resolution 15. -/
def resolutionSucc (r : Nat) : Option Nat :=
  if r < 15 then some (r + 1) else none

/-- `boundary_to_polygon` (h3o/common.rs): map each `LatLng` to a coordinate
(`x = lng, y = lat`) and append a copy of the first vertex whenever the
ring is not already closed. -/
def boundary_to_polygon (boundary : List LatLng) : Polygon :=
  let coords := boundary.map fun ll => (⟨ll.lng, ll.lat⟩ : Coord)
  if coords.head? ≠ coords.getLast? then
    match coords.head? with
    | some first => ⟨coords ++ [first]⟩
    | none => ⟨coords⟩
  else ⟨coords⟩

/-- `latlng_to_point` (h3o/common.rs). -/
def latlng_to_point (ll : LatLng) : Point := ⟨ll.lng, ll.lat⟩

/-- The children computation inside `to_zones`: `resolution().succ()` is
`None` at the maximum resolution (mapped to `ResolutionLimitReached`),
otherwise the children ids are rendered and re-validated as hex ids. -/
def childIds (bk : H3oBackend) (cell : Nat) :
    Except GeoPlegmaError (List Dggrs.ZoneId) :=
  match resolutionSucc (bk.resolution cell) with
  | none => .error .ResolutionLimitReached
  | some chr_res =>
    (bk.childrenOf cell chr_res).mapM fun c =>
      Dggrs.ZoneId.new_hex (bk.cellToString c)

/-- The neighbor computation inside `to_zones`: `grid_disk(1)` ids. -/
def neighborIds (bk : H3oBackend) (cell : Nat) :
    Except GeoPlegmaError (List Dggrs.ZoneId) :=
  (bk.gridDisk cell).mapM fun c => Dggrs.ZoneId.new_hex (bk.cellToString c)

/-- The per-cell body of h3o `to_zones`: the region polygon is computed when
`region`, `area_sqm` or `vertex_count` is requested and stored in the zone
as computed — the source has no later step dropping it. -/
def zoneOfCell (bk : H3oBackend) (conf : DggrsPortConfig) (cell : Nat) :
    Except GeoPlegmaError Zone :=
  match Dggrs.ZoneId.new_hex (bk.cellToString cell) with
  | .error e => .error e
  | .ok id =>
    let region := if conf.region || conf.area_sqm || conf.vertex_count then
        some (boundary_to_polygon (bk.boundary cell))
      else none
    match (if conf.children then (childIds bk cell).map some else .ok none) with
    | .error e => .error e
    | .ok children =>
      match (if conf.neighbors then (neighborIds bk cell).map some else .ok none) with
      | .error e => .error e
      | .ok neighbors =>
        .ok { id := id,
              region := region,
              center := if conf.center then some (latlng_to_point (bk.centroid cell)) else none,
              vertex_count := if conf.vertex_count then
                  region.map fun r => r.exterior.length
                else none,
              children := children,
              neighbors := neighbors,
              area_sqm := if conf.area_sqm then region.map bk.geodesicArea else none }

/-- The `collect::<Result<Vec<Zone>, _>>` loop of h3o `to_zones`. -/
def to_zonesGo (bk : H3oBackend) (conf : DggrsPortConfig) :
    List Nat → Except GeoPlegmaError (List Zone)
  | [] => .ok []
  | c :: rest =>
    match zoneOfCell bk conf c with
    | .error e => .error e
    | .ok z =>
      match to_zonesGo bk conf rest with
      | .error e => .error e
      | .ok zs => .ok (z :: zs)

/-- h3o `to_zones` (h3o/common.rs). -/
def to_zones (bk : H3oBackend) (h3o_zones : List Nat) (conf : DggrsPortConfig) :
    Except GeoPlegmaError Zones :=
  match to_zonesGo bk conf h3o_zones with
  | .error e => .error e
  | .ok zs => .ok ⟨zs⟩

/-- `refinement_level_to_h3_resolution`: h3o `Resolution::try_from(i32)`
succeeds exactly on `0..=15`. -/
def refinement_level_to_h3_resolution (refinement_level : RefinementLevel) :
    Except GeoPlegmaError Nat :=
  if 0 ≤ refinement_level.val ∧ refinement_level.val ≤ 15 then
    .ok refinement_level.val.toNat
  else .error .CannotTranslateToH3Resolution

/-- The resolution-limit fields of the `DggrsUid::H3` entry of `DGGRS_SPECS`
(api `constants.rs`), which `H3Impl`'s capability queries return. -/
def H3_min_refinement_level : RefinementLevel := ⟨0⟩

def H3_max_refinement_level : RefinementLevel := ⟨16⟩

def H3_default_refinement_level : RefinementLevel := ⟨2⟩

def H3_max_relative_depth : RelativeDepth := ⟨6⟩

def H3_default_relative_depth : RelativeDepth := ⟨4⟩

/-- The backend calls an `H3Impl` query can make before assembling zones. -/
inductive H3CallEvent
  | tilerCoverage
  | baseCellsChildren
  | cellChildren
  deriving Repr, DecidableEq

/-- `H3Impl::zones_from_bbox` (h3o/h3.rs): with a bbox, the tiler (built at
the fixed resolution 2) is polled for coverage and `refinement_level` is
never consulted; without a bbox, `refinement_level` is compared against the
*default* refinement level (not the maximum) and the base cells' children
are enumerated. `coverCells` and `baseCellsAt` stand for the cell sets the
h3o library returns. -/
def h3_zones_from_bbox (bk : H3oBackend) (refinement_level : RefinementLevel)
    (hasBbox : Bool) (conf : DggrsPortConfig) (coverCells : List Nat)
    (baseCellsAt : Nat → List Nat) :
    List H3CallEvent × Except GeoPlegmaError Zones :=
  if hasBbox then
    ([.tilerCoverage], to_zones bk coverCells conf)
  else if H3_default_refinement_level.val < refinement_level.val then
    ([], .error .RefinementLevelTooHigh)
  else
    match refinement_level_to_h3_resolution refinement_level with
    | .error e => ([], .error e)
    | .ok r => ([.baseCellsChildren], to_zones bk (baseCellsAt r) conf)

/-- `H3Impl::zones_from_parent` (h3o/h3.rs): parse the parent cell (the
parse outcome of `CellIndex::from_str` is supplied as `parentCell`), add
the relative depth to the parent's resolution, reject a target above the
registered maximum before any children enumeration, then translate the
target and enumerate children. -/
def h3_zones_from_parent (bk : H3oBackend) (relative_depth : RelativeDepth)
    (parentCell : Option Nat) (conf : DggrsPortConfig) :
    List H3CallEvent × Except GeoPlegmaError Zones :=
  match parentCell with
  | none => ([], .error .InvalidZoneID)
  | some parent =>
    match RefinementLevel.new ((bk.resolution parent : Int)) with
    | .error e => ([], .error e)
    | .ok prl =>
      match prl.add relative_depth with
      | .error e => ([], .error e)
      | .ok target_level =>
        if H3_max_refinement_level.val < target_level.val then
          ([], .error .RefinementLevelPlusRelativeDepthLimitReached)
        else
          match refinement_level_to_h3_resolution target_level with
          | .error e => ([], .error e)
          | .ok r => ([.cellChildren], to_zones bk (bk.childrenOf parent r) conf)

end GeoPlegma.H3o

/-!
The DGGAL (native-library) adapter's `to_zones` and `to_polygon`
(`adapters/dggal/common.rs`), over an abstract `DggalBackend`.
-/

namespace GeoPlegma.Dggal

open GeoPlegma.Adapters

/-- `dggal_rust::dggal::GeoPoint` (radians). -/
structure GeoPoint where
  lat : FloatV
  lon : FloatV
  deriving Repr, DecidableEq

/-- The f64 value of `180 / π` applied by Rust's `f64::to_degrees`; the
exact factor is irrelevant to the properties proved here, which only
compare converted coordinates for equality. -/
def degPerRad : FloatV := 57.29577951308232

/-- Rust `f64::to_degrees`. -/
def to_degrees (x : FloatV) : FloatV := x * degPerRad

/-- The DGGAL library surface used by `to_zones`, as abstract data. The
neighbor relation-type codes (`nb_types`) are discarded by the source and
omitted here. -/
structure DggalBackend where
  getZoneWGS84Centroid : Nat → GeoPoint
  getZoneRefinedWGS84Vertices : Nat → Int → List GeoPoint
  getZoneWGS84Vertices : Nat → List GeoPoint
  countZoneEdges : Nat → Int
  getZoneChildren : Nat → List Nat
  getZoneNeighbors : Nat → List Nat
  geodesicArea : Polygon → FloatV

/-- `DggalError` (dggrs crate), the variant reachable here. -/
inductive DggalError
  | EdgeCountConversion
  deriving Repr, DecidableEq

/-- `to_point` (dggal/common.rs). -/
def to_point (pt : GeoPoint) : Point := ⟨pt.lon, pt.lat⟩

/-- `to_polygon` (dggal/common.rs): radians to degrees, then push `coords[0]`
when the ring is not closed. The branch is only taken on a non-empty list,
so the `coords[0]` indexing (modelled by `headI`) is safe. -/
def to_polygon (points : List GeoPoint) : Polygon :=
  let coords := points.map fun pt => (⟨to_degrees pt.lon, to_degrees pt.lat⟩ : Coord)
  if coords.head? ≠ coords.getLast? then ⟨coords ++ [coords.headI]⟩
  else ⟨coords⟩

/-- `to_u64_zone_id` (dggal/common.rs). -/
def to_u64_zone_id (id : Nat) : Dggrs.ZoneId := .IntId id

/-- `countZoneEdges(...).try_into::<u32>()`: fails outside `0..2^32`. -/
def edgeCountToU32 (n : Int) : Except DggalError Nat :=
  if 0 ≤ n ∧ n < 2 ^ 32 then .ok n.toNat else .error .EdgeCountConversion

/-- The per-zone body of dggal `to_zones`: note the region is computed when
`neighbors` or `area_sqm` is requested (not when `region` is). -/
def zoneOfDggalZone (bk : DggalBackend) (conf : DggrsPortConfig) (z : Nat) :
    Except DggalError Zone :=
  let id := Dggrs.ZoneId.IntId z
  let region := if conf.neighbors || conf.area_sqm then
      some (to_polygon (if conf.densify then bk.getZoneRefinedWGS84Vertices z 0
                        else bk.getZoneWGS84Vertices z))
    else none
  match (if conf.vertex_count then (edgeCountToU32 (bk.countZoneEdges z)).map some
         else .ok none) with
  | .error e => .error e
  | .ok vertex_count =>
    .ok { id := id,
          region := region,
          center := if conf.center then some (to_point (bk.getZoneWGS84Centroid z)) else none,
          vertex_count := vertex_count,
          children := if conf.children then
              some ((bk.getZoneChildren z).map to_u64_zone_id)
            else none,
          neighbors := if conf.neighbors then
              some ((bk.getZoneNeighbors z).map to_u64_zone_id)
            else none,
          area_sqm := if conf.area_sqm then region.map bk.geodesicArea else none }

/-- The `collect::<Result<Vec<Zone>, _>>` loop of dggal `to_zones`. -/
def to_zonesGo (bk : DggalBackend) (conf : DggrsPortConfig) :
    List Nat → Except DggalError (List Zone)
  | [] => .ok []
  | z :: rest =>
    match zoneOfDggalZone bk conf z with
    | .error e => .error e
    | .ok zn =>
      match to_zonesGo bk conf rest with
      | .error e => .error e
      | .ok zs => .ok (zn :: zs)

/-- dggal `to_zones` (dggal/common.rs). -/
def to_zones (bk : DggalBackend) (dggal_zones : List Nat) (conf : DggrsPortConfig) :
    Except DggalError Zones :=
  match to_zonesGo bk conf dggal_zones with
  | .error e => .error e
  | .ok zs => .ok ⟨zs⟩

end GeoPlegma.Dggal

/-!
The DGGRID (external-process) adapter: the `output::ingest` assembler of
`adapters/dggrid/common.rs`, and effect models of the `Isea3hImpl` port
operations (`adapters/dggrid/isea3h.rs`). The per-call effect of a port
operation is modelled as the list of filesystem/process events it performs
together with its returned result; the outcome of `dggrid_parse` on the
external tool's output files is an oracle parameter, since the file
contents come from the external process.
-/

namespace GeoPlegma.Dggrid

open GeoPlegma.Dggrs GeoPlegma.Adapters

/-- One record of the parsed AIGEN output (`parse_aigen_to_zones_map`): a
zone id, the center from the header line, and the region polygon (absent
when fewer than two vertex lines precede the `END` marker). -/
structure AigenRec where
  id : ZoneId
  center : Point
  region : Option Polygon
  deriving Repr, DecidableEq

/-- `HashMap::remove`-style lookup in a parsed children/neighbors map. -/
def lookupIds (m : List (ZoneId × List ZoneId)) (id : ZoneId) :
    Option (List ZoneId) :=
  (m.find? fun p => decide (p.1 = id)).map fun p => p.2

/-- `output::ingest` (dggrid/common.rs), from parsed inputs: attach children
and neighbors (their maps were only read when requested, hence empty maps
otherwise), compute `vertex_count`/`area_sqm` from the parsed region when
requested, then drop the region and center fields that were not requested.
`corner_count_convex` and `geodesic_area_unsigned` are the shared helper
computations, opaque to this property. -/
def output_ingest (aigen : List AigenRec)
    (children_map neighbors_map : List (ZoneId × List ZoneId))
    (corner_count_convex : Polygon → Nat)
    (geodesic_area_unsigned : Polygon → FloatV)
    (conf : DggrsPortConfig) : Zones :=
  let cm := if conf.children then children_map else []
  let nm := if conf.neighbors then neighbors_map else []
  ⟨aigen.map fun r =>
    { id := r.id,
      region := if conf.region then r.region else none,
      center := if conf.center then some r.center else none,
      vertex_count := if conf.vertex_count then r.region.map corner_count_convex else none,
      children := lookupIds cm r.id,
      neighbors := lookupIds nm r.id,
      area_sqm := if conf.area_sqm then r.region.map geodesic_area_unsigned else none }⟩

/-- The six temp-file paths derived from one random token by
`dggrid_setup`: metafile, AIGEN polygon output, children output, neighbor
output, bbox clip input, and point/id input. -/
inductive TempFile
  | meta
  | gen
  | chd
  | nbr
  | bboxf
  | input
  deriving Repr, DecidableEq

/-- A filesystem/process event of one external-process adapter call. -/
inductive FxEvent
  | writeFile (f : TempFile)
  | execDggrid
  | removeFile (f : TempFile)
  deriving Repr, DecidableEq

/-- Modelled from the spec: the five-argument `dggrid_cleanup` helper the
isea3h/igeo7 adapters call is not present under `src/` (only its callers
are); per §4.3, "Always delete all temp files on completion", it removes
each path it is given. The call sites hand it five of the six paths —
never the input path. -/
def dggrid_cleanup : List FxEvent :=
  [.removeFile .meta, .removeFile .gen, .removeFile .chd,
   .removeFile .nbr, .removeFile .bboxf]

/-- `Isea3hImpl::zones_from_bbox` as an effect trace: `dggrid_setup` only
derives paths, the metafile is written (`dggrid_metafile` embeds the
requested refinement level as `dggs_res_spec`, `isea3h_metafile` appends),
a bbox file plus metafile appendix is written when a bbox is given, the
external tool runs, `dggrid_parse` reads the outputs (outcome `parsed`),
and a parse error propagates through `?` before `dggrid_cleanup` runs.
No comparison of `refinement_level` against any limit occurs on the path;
the level's only use is to be written into the metafile. -/
def isea3h_zones_from_bbox (refinement_level : RefinementLevel)
    (hasBbox : Bool) (conf : DggrsPortConfig)
    (parsed : Except GeoPlegmaError Zones) :
    List FxEvent × Except GeoPlegmaError Zones :=
  let pre := [FxEvent.writeFile .meta, FxEvent.writeFile .meta]
      ++ (if hasBbox then [FxEvent.writeFile .bboxf, FxEvent.writeFile .meta] else [])
      ++ [FxEvent.execDggrid]
  match parsed with
  | .ok z => (pre ++ dggrid_cleanup, .ok z)
  | .error e => (pre, .error e)

/-- `Isea3hImpl::zones_from_parent` as an effect trace: the parent level is
decoded from the Z3 id and the relative depth added — both before any file
is written — then the metafile (with `COARSE_CELLS` clip appendix) is
written and the tool runs. The computed target level is written into the
metafile but never compared against the grid's maximum. -/
def isea3h_zones_from_parent (relative_depth : RelativeDepth)
    (parent_zone_id : ZoneId) (conf : DggrsPortConfig)
    (parsed : Except GeoPlegmaError Zones) :
    List FxEvent × Except GeoPlegmaError Zones :=
  match get_refinement_level_from_z3_zone_id parent_zone_id with
  | .error e => ([], .error e)
  | .ok parent_zone_res =>
    match parent_zone_res.add relative_depth with
    | .error e => ([], .error e)
    | .ok _target_level =>
      let pre := [FxEvent.writeFile .meta, FxEvent.writeFile .meta,
                  FxEvent.writeFile .meta, FxEvent.execDggrid]
      match parsed with
      | .ok z => (pre ++ dggrid_cleanup, .ok z)
      | .error e => (pre, .error e)

/-- `Isea3hImpl::zone_from_id` as an effect trace: decode the id's level,
write the metafile and the id input file, run the tool, parse, then clean
up. Unlike `zone_from_point`, no `fs::remove_file(&input_path)` follows
the five-path cleanup call, and a parse error returns before any cleanup. -/
def isea3h_zone_from_id (zone_id : ZoneId) (conf : DggrsPortConfig)
    (parsed : Except GeoPlegmaError Zones) :
    List FxEvent × Except GeoPlegmaError Zones :=
  match get_refinement_level_from_z3_zone_id zone_id with
  | .error e => ([], .error e)
  | .ok _refinement_level =>
    let pre := [FxEvent.writeFile .meta, FxEvent.writeFile .meta,
                FxEvent.writeFile .meta, FxEvent.writeFile .input,
                FxEvent.execDggrid]
    match parsed with
    | .ok z => (pre ++ dggrid_cleanup, .ok z)
    | .error e => (pre, .error e)

/-- `Isea3hImpl::max_refinement_level` (isea3h.rs): `RefinementLevel::new(32)`. -/
def Isea3h_max_refinement_level : Except GeoPlegmaError RefinementLevel :=
  RefinementLevel.new 32

/-- Replay one event against the set of existing temp files; `ext` is the
set of output files the external DGGRID process creates when it runs. -/
def applyFx (ext : List TempFile) (s : List TempFile) : FxEvent → List TempFile
  | .writeFile f => if f ∈ s then s else f :: s
  | .removeFile f => s.filter fun g => decide (g ≠ f)
  | .execDggrid => ext.foldl (fun acc f => if f ∈ acc then acc else f :: acc) s

/-- The temp files still existing after an adapter call's events, starting
from a clean slate (the per-call random token means no path pre-exists). -/
def filesAfter (ext : List TempFile) (events : List FxEvent) : List TempFile :=
  events.foldl (applyFx ext) []

end GeoPlegma.Dggrid

/-!
Concrete backend instances used to evaluate the adapter models at
specific inputs.
-/

namespace GeoPlegma.H3o

open GeoPlegma.Adapters

/-- A minimal concrete h3o backend: one cell whose id renders as a fixed
16-character hex string, with a three-vertex boundary, resolution 9, and
empty children/neighbor sets. -/
def bkTest : H3oBackend :=
  { cellToString := fun _ => "8928308280fffff0".toList,
    boundary := fun _ => [⟨0, 0⟩, ⟨0, 1⟩, ⟨1, 0⟩],
    centroid := fun _ => ⟨0, 0⟩,
    resolution := fun _ => 9,
    childrenOf := fun _ _ => [],
    gridDisk := fun _ => [],
    geodesicArea := fun _ => 0 }

end GeoPlegma.H3o

namespace GeoPlegma.Dggal

open GeoPlegma.Adapters

/-- A minimal concrete DGGAL backend: a square-ish four-vertex zone with
six edges reported, empty children/neighbor sets. -/
def bkDggalTest : DggalBackend :=
  { getZoneWGS84Centroid := fun _ => ⟨0, 0⟩,
    getZoneRefinedWGS84Vertices := fun _ _ => [⟨0, 0⟩, ⟨0, 1⟩, ⟨1, 1⟩],
    getZoneWGS84Vertices := fun _ => [⟨0, 0⟩, ⟨0, 1⟩, ⟨1, 1⟩],
    countZoneEdges := fun _ => 6,
    getZoneChildren := fun _ => [],
    getZoneNeighbors := fun _ => [],
    geodesicArea := fun _ => 0 }

end GeoPlegma.Dggal

/-!
Supporting lemmas: character primitives, decimal digit round-trips, and
the shape of the Z3/Z7 digit scans.
-/

namespace GeoPlegma

theorem isAsciiDigit_isAsciiHexdigit {c : Char} (h : isAsciiDigit c = true) :
    isAsciiHexdigit c = true := by
  simp [isAsciiHexdigit, h]

theorem digitVal_lt_ten {c : Char} (h : isAsciiDigit c = true) : digitVal c < 10 := by
  simp only [isAsciiDigit, decide_eq_true_eq] at h
  simp only [digitVal, if_pos h]
  omega

theorem digitVal_lt_sixteen {c : Char} (h : isAsciiHexdigit c = true) :
    digitVal c < 16 := by
  simp only [isAsciiHexdigit, isAsciiDigit, Bool.or_eq_true, decide_eq_true_eq] at h
  unfold digitVal
  rcases h with (h | h) | h
  · rw [if_pos h]; omega
  · rw [if_neg (by omega), if_pos h]; omega
  · rw [if_neg (by omega), if_neg (by omega), if_pos h]; omega

theorem digitVal_lt_ten_isAsciiDigit {c : Char} (h : digitVal c < 10) :
    isAsciiDigit c = true := by
  unfold digitVal at h
  split at h
  · simpa [isAsciiDigit] using by omega
  · split at h
    · omega
    · split at h <;> omega

theorem digitChar_toNat {d : Nat} (h : d < 10) : (digitChar d).toNat = 48 + d := by
  interval_cases d <;> decide

theorem digitVal_digitChar {d : Nat} (h : d < 10) : digitVal (digitChar d) = d := by
  interval_cases d <;> decide

theorem isAsciiDigit_digitChar {d : Nat} (h : d < 10) :
    isAsciiDigit (digitChar d) = true := by
  interval_cases d <;> decide

theorem digitChar_digitVal {c : Char} (h : isAsciiDigit c = true) :
    digitChar (digitVal c) = c := by
  simp only [isAsciiDigit, decide_eq_true_eq] at h
  have hv : digitVal c = c.toNat - 48 := by simp [digitVal, if_pos h]
  have : 48 + (c.toNat - 48) = c.toNat := by omega
  rw [digitChar, hv, this, Char.ofNat_toNat]

theorem digitVal_eq_zero {c : Char} (h : isAsciiDigit c = true)
    (h0 : digitVal c = 0) : c = '0' := by
  have := digitChar_digitVal h
  rw [h0] at this
  exact this.symm

theorem digitChar_ne_plus {d : Nat} (h : d < 10) : digitChar d ≠ '+' := by
  interval_cases d <;> decide

theorem not_whitespace_of_hexdigit {c : Char} (h : isAsciiHexdigit c = true) :
    isRustWhitespace c = false := by
  simp only [isAsciiHexdigit, isAsciiDigit, Bool.or_eq_true, decide_eq_true_eq] at h
  simp only [isRustWhitespace, decide_eq_false_iff_not]
  omega

theorem dropWhile_eq_self_of_all {p : Char → Bool} {l : List Char}
    (h : ∀ c ∈ l, p c = false) : l.dropWhile p = l := by
  cases l with
  | nil => rfl
  | cons a t => simp [List.dropWhile_cons, h a (List.mem_cons_self a t)]

theorem strTrim_of_hex {s : List Char} (h : ∀ c ∈ s, isAsciiHexdigit c = true) :
    strTrim s = s := by
  have h1 : s.dropWhile isRustWhitespace = s :=
    dropWhile_eq_self_of_all fun c hc => not_whitespace_of_hexdigit (h c hc)
  have h2 : s.reverse.dropWhile isRustWhitespace = s.reverse :=
    dropWhile_eq_self_of_all fun c hc =>
      not_whitespace_of_hexdigit (h c (List.mem_reverse.mp hc))
  rw [strTrim, h1, h2, List.reverse_reverse]

theorem stripPlus_of_head_digit {c : Char} {t : List Char}
    (h : isAsciiDigit c = true) : stripPlus (c :: t) = c :: t := by
  have : c ≠ '+' := by
    simp only [isAsciiDigit, decide_eq_true_eq] at h
    intro he
    subst he
    simp at h
  simp [stripPlus, this]

/-- A most-significant-first fold accumulates `Nat.ofDigits` of the
reversed (least-significant-first) digit list. -/
theorem foldl_mul_add (b : Nat) (L : List Nat) (a : Nat) :
    L.foldl (fun acc d => acc * b + d) a = a * b ^ L.length + Nat.ofDigits b L.reverse := by
  induction L generalizing a with
  | nil => simp [Nat.ofDigits]
  | cons d T ih =>
    rw [List.foldl_cons, ih, List.reverse_cons, Nat.ofDigits_append]
    simp only [Nat.ofDigits_singleton, List.length_cons, List.length_reverse, pow_succ]
    ring

theorem foldl_digits_eq_ofDigits (b : Nat) (s : List Char) :
    s.foldl (fun acc c => acc * b + digitVal c) 0
      = Nat.ofDigits b ((s.map digitVal).reverse) := by
  rw [← List.foldl_map digitVal (fun acc d => acc * b + d) s 0, foldl_mul_add]
  simp

/-- Parsing the decimal rendering of `n < 2 ^ 64` back with
`u64::from_str_radix(_, 10)` recovers `n`. -/
theorem u64FromStrRadix_natDecChars {n : Nat} (h : n < 2 ^ 64) :
    u64FromStrRadix 10 (natDecChars n) = some n := by
  by_cases h0 : n = 0
  · subst h0; decide
  · have hdig : ∀ d ∈ Nat.digits 10 n, d < 10 := fun d hd =>
      Nat.digits_lt_base (by norm_num) hd
    have hchars : ∀ c ∈ natDecChars n, isAsciiDigit c = true := by
      intro c hc
      rw [natDecChars, if_neg h0] at hc
      rw [List.mem_reverse, List.mem_map] at hc
      obtain ⟨d, hd, rfl⟩ := hc
      exact isAsciiDigit_digitChar (hdig d hd)
    have hne : natDecChars n ≠ [] := by
      rw [natDecChars, if_neg h0]
      simpa using Nat.digits_ne_nil_iff_ne_zero.mpr h0
    have hmap : (natDecChars n).map digitVal = (Nat.digits 10 n).reverse := by
      rw [natDecChars, if_neg h0, List.map_reverse, List.map_map]
      congr 1
      have hcongr := List.map_congr_left (f := digitVal ∘ digitChar) (g := id)
        (l := Nat.digits 10 n) fun d hd => by
          simpa using digitVal_digitChar (hdig d hd)
      rw [hcongr, List.map_id]
    obtain ⟨c, t, hct⟩ := List.exists_cons_of_ne_nil hne
    have hstrip : stripPlus (natDecChars n) = natDecChars n := by
      rw [hct]
      exact stripPlus_of_head_digit (hchars c (by rw [hct]; simp))
    rw [u64FromStrRadix]
    simp only [hstrip]
    rw [if_neg hne, if_pos (by
      rw [List.all_eq_true]
      intro c hc
      exact decide_eq_true (digitVal_lt_ten (hchars c hc)))]
    rw [foldl_digits_eq_ofDigits, hmap, List.reverse_reverse, Nat.ofDigits_digits,
      if_pos h]

/-- Rendering the value of a leading-zero-free non-empty decimal string
with `natDecChars` recovers the string. -/
theorem natDecChars_ofDigits {s : List Char} (hne : s ≠ [])
    (hdig : ∀ c ∈ s, isAsciiDigit c = true)
    (hzero : s.head? ≠ some '0' ∨ s = ['0']) :
    natDecChars (Nat.ofDigits 10 ((s.map digitVal).reverse)) = s := by
  rcases hzero with hzero | rfl
  · obtain ⟨c, t, rfl⟩ := List.exists_cons_of_ne_nil hne
    have hc : isAsciiDigit c = true := hdig c (by simp)
    have hc0 : digitVal c ≠ 0 := fun h0 => by
      exact hzero (by rw [digitVal_eq_zero hc h0]; rfl)
    have hvals : ∀ d ∈ ((c :: t).map digitVal).reverse, d < 10 := by
      intro d hd
      rw [List.mem_reverse, List.mem_map] at hd
      obtain ⟨x, hx, rfl⟩ := hd
      exact digitVal_lt_ten (hdig x hx)
    have hlast : ∀ (h : ((c :: t).map digitVal).reverse ≠ []),
        (((c :: t).map digitVal).reverse).getLast h ≠ 0 := by
      intro h
      rw [List.getLast_reverse]
      simpa using hc0
    have hd10 : Nat.digits 10 (Nat.ofDigits 10 (((c :: t).map digitVal).reverse))
        = ((c :: t).map digitVal).reverse :=
      Nat.digits_ofDigits 10 (by norm_num) _ hvals hlast
    have hnz : Nat.ofDigits 10 (((c :: t).map digitVal).reverse) ≠ 0 := by
      intro h0
      have : Nat.digits 10 0 = ((c :: t).map digitVal).reverse := by rw [← h0, hd10]
      simp at this
    rw [natDecChars, if_neg hnz, hd10, List.map_reverse, List.reverse_reverse,
      List.map_map]
    have hcongr := List.map_congr_left (f := digitChar ∘ digitVal) (g := id)
      (l := c :: t) fun x hx => by
        simpa using digitChar_digitVal (hdig x hx)
    rw [hcongr, List.map_id]
  · decide

end GeoPlegma

namespace GeoPlegma.Dggrid

open GeoPlegma.Dggrs

/-- The Z3 scan computes the first-padding-digit index (or the default
30): the out-of-range branch is unreachable because each digit is < 4. -/
theorem z3Find_eq_find? (v : Nat) (l : List Nat) :
    z3Find v l = .ok ((l.find? fun i => z3Digit v i == 3).getD 30) := by
  induction l with
  | nil => rfl
  | cons i rest ih =>
    have hlt : z3Digit v i < 4 := Nat.mod_lt _ (by norm_num)
    rw [z3Find, if_neg (by omega)]
    by_cases h3 : z3Digit v i = 3
    · rw [if_pos h3, List.find?_cons_of_pos _ (by simp [h3])]
      rfl
    · rw [if_neg h3, List.find?_cons_of_neg _ (by simp [h3]), ih]

/-- The Z7 scan never takes its out-of-range branch either. -/
theorem z7Find_eq_find? (v : Nat) (l : List Nat) :
    z7Find v l = .ok ((l.find? fun i => z7Digit v i == 7).getD 20) := by
  induction l with
  | nil => rfl
  | cons i rest ih =>
    have hlt : z7Digit v i < 8 := Nat.mod_lt _ (by norm_num)
    rw [z7Find, if_neg (by omega)]
    by_cases h7 : z7Digit v i = 7
    · rw [if_pos h7, List.find?_cons_of_pos _ (by simp [h7])]
      rfl
    · rw [if_neg h7, List.find?_cons_of_neg _ (by simp [h7]), ih]

/-- The first-padding index is at most 30, so `RefinementLevel::new` never
sees a negative value and the decoder succeeds on every parseable `HexId`. -/
theorem get_refinement_level_z3_ok (h : HexString) (v : Nat)
    (hp : u64FromStrRadix 16 h.chars = some v) :
    get_refinement_level_from_z3_zone_id (.HexId h)
      = .ok ⟨(z3FirstPaddingIdx v : Int)⟩ := by
  rw [get_refinement_level_from_z3_zone_id, hp]
  simp only [z3Find_eq_find? v, z3FirstPaddingIdx]
  rw [RefinementLevel.new, if_neg (by omega)]

end GeoPlegma.Dggrid

/-!
Further supporting lemmas used by the claim theorems.
-/

namespace GeoPlegma

theorem natDecChars_ne_nil (n : Nat) : natDecChars n ≠ [] := by
  by_cases h0 : n = 0
  · subst h0; decide
  · rw [natDecChars, if_neg h0]
    simpa using Nat.digits_ne_nil_iff_ne_zero.mpr h0

theorem natDecChars_all_digit (n : Nat) :
    ∀ c ∈ natDecChars n, isAsciiDigit c = true := by
  by_cases h0 : n = 0
  · subst h0; decide
  · intro c hc
    rw [natDecChars, if_neg h0] at hc
    rw [List.mem_reverse, List.mem_map] at hc
    obtain ⟨d, hd, rfl⟩ := hc
    exact isAsciiDigit_digitChar (Nat.digits_lt_base (by norm_num) hd)

/-- `u64::from_str_radix(_, 10)` on a non-empty all-decimal string yields
the big-endian value of its digits when that value fits a `u64`. -/
theorem u64FromStrRadix_ten {s : List Char} (hne : s ≠ [])
    (hdig : ∀ c ∈ s, isAsciiDigit c = true)
    (hlt : Nat.ofDigits 10 ((s.map digitVal).reverse) < 2 ^ 64) :
    u64FromStrRadix 10 s = some (Nat.ofDigits 10 ((s.map digitVal).reverse)) := by
  obtain ⟨c, t, rfl⟩ := List.exists_cons_of_ne_nil hne
  have hstrip : stripPlus (c :: t) = c :: t :=
    stripPlus_of_head_digit (hdig c (by simp))
  rw [u64FromStrRadix]
  simp only [hstrip]
  rw [if_neg (by simp), if_pos (by
    rw [List.all_eq_true]
    intro x hx
    exact decide_eq_true (digitVal_lt_ten (hdig x hx)))]
  rw [foldl_digits_eq_ofDigits, if_pos hlt]

/-- The value of a ≤ 16 character decimal string fits a `u64`. -/
theorem ofDigits_lt_of_len_le {s : List Char} (hlen : s.length ≤ 16)
    (hdig : ∀ c ∈ s, isAsciiDigit c = true) :
    Nat.ofDigits 10 ((s.map digitVal).reverse) < 2 ^ 64 := by
  have h1 : Nat.ofDigits 10 ((s.map digitVal).reverse) < 10 ^ s.length := by
    have := Nat.ofDigits_lt_base_pow_length (b := 10) (l := (s.map digitVal).reverse)
      (by norm_num) (by
        intro x hx
        rw [List.mem_reverse, List.mem_map] at hx
        obtain ⟨y, hy, rfl⟩ := hx
        exact digitVal_lt_ten (hdig y hy))
    simpa using this
  calc Nat.ofDigits 10 ((s.map digitVal).reverse) < 10 ^ s.length := h1
    _ ≤ 10 ^ 16 := Nat.pow_le_pow_right (by norm_num) hlen
    _ < 2 ^ 64 := by norm_num

/-- Identity of the `i32` wrap inside the representable range. -/
theorem wrap32_eq_self {x : Int} (h1 : -(2 ^ 31) ≤ x) (h2 : x < 2 ^ 31) :
    Api.wrap32 x = x := by
  unfold Api.wrap32
  omega

/-- Overflowing sums wrap to `x - 2^32`. -/
theorem wrap32_eq_sub {x : Int} (h1 : 2 ^ 31 ≤ x) (h2 : x < 2 ^ 32) :
    Api.wrap32 x = x - 2 ^ 32 := by
  unfold Api.wrap32
  omega

end GeoPlegma

/-!
The claim theorems.
-/

namespace GeoPlegma

open GeoPlegma.Dggrs GeoPlegma.Dggrid

/-- C1: for every 64-bit Z3 zone identifier supplied as a hex `ZoneId`
(hex payload parsing to the `u64` value `v`),
`get_refinement_level_from_z3_zone_id` returns the zero-based index of the
first 2-bit digit equal to 3, scanning the 30 digit positions of the low
60 bits from most significant to least significant, or refinement level 30
when no digit equals 3 (`z3FirstPaddingIdx`); in particular, an identifier
whose top 4 bits are a valid base cell (≤ 11) and whose first ten 2-bit
digit groups are 0,1,2,0,1,2,0,1,2,3 decodes to refinement level 9. -/
theorem c1_z3_refinement_level_decoding (h : Dggrs.HexString) (v : Nat)
    (hp : u64FromStrRadix 16 h.chars = some v) :
    get_refinement_level_from_z3_zone_id (.HexId h)
        = .ok ⟨(z3FirstPaddingIdx v : Int)⟩
    ∧ (v >>> 60 ≤ 11 →
        z3Digit v 0 = 0 → z3Digit v 1 = 1 → z3Digit v 2 = 2 →
        z3Digit v 3 = 0 → z3Digit v 4 = 1 → z3Digit v 5 = 2 →
        z3Digit v 6 = 0 → z3Digit v 7 = 1 → z3Digit v 8 = 2 →
        z3Digit v 9 = 3 →
        get_refinement_level_from_z3_zone_id (.HexId h) = .ok ⟨9⟩) := by
  refine ⟨get_refinement_level_z3_ok h v hp, ?_⟩
  intro _ d0 d1 d2 d3 d4 d5 d6 d7 d8 d9
  have hidx : z3FirstPaddingIdx v = 9 := by
    rw [z3FirstPaddingIdx,
      show List.range 30 = [0, 1, 2, 3, 4, 5, 6, 7, 8, 9, 10, 11, 12, 13, 14,
        15, 16, 17, 18, 19, 20, 21, 22, 23, 24, 25, 26, 27, 28, 29] from rfl,
      List.find?_cons_of_neg _ (by simp [d0]),
      List.find?_cons_of_neg _ (by simp [d1]),
      List.find?_cons_of_neg _ (by simp [d2]),
      List.find?_cons_of_neg _ (by simp [d3]),
      List.find?_cons_of_neg _ (by simp [d4]),
      List.find?_cons_of_neg _ (by simp [d5]),
      List.find?_cons_of_neg _ (by simp [d6]),
      List.find?_cons_of_neg _ (by simp [d7]),
      List.find?_cons_of_neg _ (by simp [d8]),
      List.find?_cons_of_pos _ (by simp [d9])]
    rfl
  rw [get_refinement_level_z3_ok h v hp, hidx]
  norm_num

/-- Witness for C1 at the concrete identifier `01861b0000000000`: base cell
0, first ten digits 0,1,2,0,1,2,0,1,2,3, level 9. -/
theorem c1_z3_refinement_level_decoding_witness :
    u64FromStrRadix 16 ("01861b0000000000".toList) = some 0x01861b0000000000
    ∧ get_refinement_level_from_z3_zone_id
        (.HexId ⟨"01861b0000000000".toList⟩) = .ok ⟨9⟩ := by
  refine ⟨by decide, ?_⟩
  exact (c1_z3_refinement_level_decoding ⟨"01861b0000000000".toList⟩
      0x01861b0000000000 (by decide)).2 (by decide) (by decide) (by decide)
      (by decide) (by decide) (by decide) (by decide) (by decide) (by decide)
      (by decide) (by decide)

/-- C2 counterexample: the claim says the Z3 decoder rejects an identifier
whose top-4-bit base cell exceeds 11 with a format error, but
`get_refinement_level_from_z3_zone_id` performs no base-cell check: the
identifier `f000000000000000` has base cell 15 > 11 yet decodes
successfully (to level 30). -/
theorem c2_counterexample :
    ((0xf000000000000000 : Nat) >>> 60) % 16 = 15
    ∧ get_refinement_level_from_z3_zone_id
        (.HexId ⟨"f000000000000000".toList⟩) = .ok ⟨30⟩ := by
  exact ⟨by decide, by decide⟩

/-- C2 amended: the Z7 decoder rejects an identifier whose top-4-bit base
cell exceeds 11 with a format error; the Z3 decoder performs no base-cell
check and succeeds on every parseable hex identifier regardless of base
cell; and in both decoders each extracted digit is masked to its field
width (2 resp. 3 bits), so a digit can never exceed the valid range and
the digit-range rejection is unreachable. -/
theorem c2_bitpacked_rejection_amended :
    (∀ (s : List Char) (v : Nat), u64FromStrRadix 16 (strip0x s) = some v →
        (v >>> 60) % 16 > 11 →
        extract_res_from_z7 s = .error (.invalidBaseCell ((v >>> 60) % 16)))
    ∧ (∀ (h : Dggrs.HexString) (v : Nat), u64FromStrRadix 16 h.chars = some v →
        ∃ r, get_refinement_level_from_z3_zone_id (.HexId h) = .ok r)
    ∧ (∀ v i, z3Digit v i ≤ 3 ∧ z7Digit v i ≤ 7) := by
  refine ⟨?_, ?_, ?_⟩
  · intro s v hp hb
    simp only [extract_res_from_z7, hp]
    rw [if_pos hb]
  · intro h v hp
    exact ⟨_, get_refinement_level_z3_ok h v hp⟩
  · intro v i
    exact ⟨Nat.le_of_lt_succ (Nat.mod_lt _ (by norm_num)),
      Nat.le_of_lt_succ (Nat.mod_lt _ (by norm_num))⟩

/-- Witness for the C2 amendment: `extract_res_from_z7` rejects base cell
15, and the Z3 decoder succeeds on the same bit pattern. -/
theorem c2_bitpacked_rejection_amended_witness :
    extract_res_from_z7 ("f000000000000000".toList) = .error (.invalidBaseCell 15)
    ∧ ∃ r, get_refinement_level_from_z3_zone_id
        (.HexId ⟨"f000000000000000".toList⟩) = .ok r := by
  constructor
  · have h := c2_bitpacked_rejection_amended.1 ("f000000000000000".toList)
      0xf000000000000000 (by decide) (by decide)
    have he : ((0xf000000000000000 : Nat) >>> 60) % 16 = 15 := by decide
    rw [he] at h
    exact h
  · exact c2_bitpacked_rejection_amended.2.1 ⟨"f000000000000000".toList⟩
      0xf000000000000000 (by decide)

end GeoPlegma

namespace GeoPlegma

open GeoPlegma.Api

/-- C3 counterexample: the string `"00"` is a valid hex string of at most
16 characters, but parsing classifies it as pure-decimal, yielding the
integer id 0, whose display is `"0" ≠ "00"`. -/
theorem c3_counterexample :
    Api.ZoneId.from_str ['0', '0'] = .ok (.IntId 0)
    ∧ Api.ZoneId.display (.IntId 0) = ['0']
    ∧ (['0'] : List Char) ≠ ['0', '0'] := by
  exact ⟨by decide, by decide, by decide⟩

/-- C3 amended: for every valid hex string h of 1 to 16 hex characters that
is not a pure-decimal numeral with a leading zero, displaying the parsed
`ZoneId` yields h again (pure-decimal h parses to the integer id of its
value, so a leading zero is lost in display); and for every `u64` n,
parsing the display of `ZoneId::IntId(n)` yields the same integer id. -/
theorem c3_round_trip_amended :
    (∀ s : List Char, s ≠ [] → s.length ≤ 16 →
        (∀ c ∈ s, isAsciiHexdigit c = true) →
        ((¬ ∀ c ∈ s, isAsciiDigit c = true) ∨ s.head? ≠ some '0' ∨ s = ['0']) →
        ∃ z, Api.ZoneId.from_str s = .ok z ∧ z.display = s)
    ∧ (∀ n : Nat, n < 2 ^ 64 →
        Api.ZoneId.from_str (Api.ZoneId.display (.IntId n)) = .ok (.IntId n)) := by
  constructor
  · intro s hne hlen hhex hcase
    have htrim : strTrim s = s := strTrim_of_hex hhex
    by_cases hdec : ∀ c ∈ s, isAsciiDigit c = true
    · have hval : u64FromStrRadix 10 s
          = some (Nat.ofDigits 10 ((s.map digitVal).reverse)) :=
        u64FromStrRadix_ten hne hdec (ofDigits_lt_of_len_le hlen hdec)
      refine ⟨.IntId (Nat.ofDigits 10 ((s.map digitVal).reverse)), ?_, ?_⟩
      · simp only [ZoneId.from_str, htrim]
        rw [if_pos ⟨hne, List.all_eq_true.mpr hdec⟩, hval]
        rfl
      · simp only [ZoneId.display]
        apply natDecChars_ofDigits hne hdec
        rcases hcase with h | h | h
        · exact absurd hdec h
        · exact Or.inl h
        · exact Or.inr h
    · refine ⟨.HexId ⟨s⟩, ?_, by simp [ZoneId.display]⟩
      simp only [ZoneId.from_str, htrim]
      have hcond : ¬ (s ≠ [] ∧ s.all isAsciiDigit = true) := by
        rintro ⟨-, hall⟩
        exact hdec (List.all_eq_true.mp hall)
      rw [if_neg hcond]
      have hhexish : s ≠ [] ∧ s.all isAsciiHexdigit = true :=
        ⟨hne, List.all_eq_true.mpr hhex⟩
      rw [if_pos hhexish]
      have hok : HexString.new s = .ok ⟨s⟩ := by
        rw [HexString.new, if_pos ⟨hlen, List.all_eq_true.mpr hhex⟩]
      simp [ZoneId.new_hex, hok]
  · intro n hn
    have hne := natDecChars_ne_nil n
    have hdig := natDecChars_all_digit n
    have htrim : strTrim (natDecChars n) = natDecChars n :=
      strTrim_of_hex fun c hc => isAsciiDigit_isAsciiHexdigit (hdig c hc)
    show Api.ZoneId.from_str (natDecChars n) = .ok (.IntId n)
    simp only [ZoneId.from_str, htrim]
    rw [if_pos ⟨hne, List.all_eq_true.mpr hdig⟩, u64FromStrRadix_natDecChars hn]
    rfl

/-- Witness for the C3 amendment: the hex string `"a0"` round-trips through
parse and display, and the integer id 57 round-trips through display and
parse. -/
theorem c3_round_trip_amended_witness :
    (∃ z, Api.ZoneId.from_str ['a', '0'] = .ok z ∧ z.display = ['a', '0'])
    ∧ Api.ZoneId.from_str (Api.ZoneId.display (.IntId 57)) = .ok (.IntId 57) := by
  exact ⟨c3_round_trip_amended.1 ['a', '0'] (by decide) (by decide) (by decide)
      (Or.inl (by decide)),
    c3_round_trip_amended.2 57 (by decide)⟩

end GeoPlegma

namespace GeoPlegma

open GeoPlegma.Dggrs GeoPlegma.Dggrid GeoPlegma.Adapters

/-- C4 counterexample: `Isea3hImpl` registers maximum refinement level 32,
yet `zones_from_bbox` at level 33 = max + 1 performs no limit check: the
external DGGRID process is executed and the parse outcome is returned
unchanged (here a success), instead of a limit error before any backend
work. -/
theorem c4_counterexample :
    Isea3h_max_refinement_level = .ok ⟨32⟩
    ∧ FxEvent.execDggrid
        ∈ (isea3h_zones_from_bbox ⟨33⟩ false .default (.ok ⟨[]⟩)).1
    ∧ (isea3h_zones_from_bbox ⟨33⟩ false .default (.ok ⟨[]⟩)).2 = .ok ⟨[]⟩ := by
  exact ⟨by decide, by decide, by decide⟩

/-- C4 amended: the DGGRID ISEA3H adapter performs no refinement-level
limit check at all — `zones_from_bbox` executes the external process and
returns the parse outcome for every requested level (so also for the
registered maximum plus one) — whereas the H3 adapter does fail fast
before backend work: `zones_from_parent` returns a limit error when the
parent's level plus the relative depth exceeds the registered maximum
(16), and whole-earth `zones_from_bbox` returns a limit error when the
level exceeds the registered *default* (2, not the maximum). -/
theorem c4_fail_fast_amended :
    (∀ (lvl : Dggrs.RefinementLevel) (hasBbox : Bool) (conf : DggrsPortConfig)
        (parsed : Except GeoPlegmaError Zones),
        (isea3h_zones_from_bbox lvl hasBbox conf parsed).2 = parsed
        ∧ FxEvent.execDggrid ∈ (isea3h_zones_from_bbox lvl hasBbox conf parsed).1)
    ∧ (∀ (bk : H3o.H3oBackend) (d : Dggrs.RelativeDepth) (cell : Nat)
        (conf : DggrsPortConfig),
        0 ≤ d.val → (bk.resolution cell : Int) + d.val < 2 ^ 31 →
        16 < (bk.resolution cell : Int) + d.val →
        H3o.h3_zones_from_parent bk d (some cell) conf
          = ([], .error .RefinementLevelPlusRelativeDepthLimitReached))
    ∧ (∀ (bk : H3o.H3oBackend) (lvl : Dggrs.RefinementLevel)
        (conf : DggrsPortConfig) (cover : List Nat) (base : Nat → List Nat),
        2 < lvl.val →
        H3o.h3_zones_from_bbox bk lvl false conf cover base
          = ([], .error .RefinementLevelTooHigh)) := by
  refine ⟨?_, ?_, ?_⟩
  · intro lvl hasBbox conf parsed
    cases parsed <;> cases hasBbox <;>
      simp [isea3h_zones_from_bbox, dggrid_cleanup]
  · intro bk d cell conf h0 hlt hmax
    have hres : Dggrs.RefinementLevel.new ((bk.resolution cell : Nat) : Int)
        = .ok ⟨(bk.resolution cell : Int)⟩ := by
      rw [Dggrs.RefinementLevel.new, if_neg (by omega)]
    have hadd : Dggrs.RefinementLevel.add ⟨(bk.resolution cell : Int)⟩ d
        = .ok ⟨(bk.resolution cell : Int) + d.val⟩ := by
      rw [Dggrs.RefinementLevel.add,
        wrap32_eq_self (by omega) hlt, Dggrs.RefinementLevel.new,
        if_neg (by omega)]
    simp only [H3o.h3_zones_from_parent, hres, hadd]
    rw [if_pos (by simpa [H3o.H3_max_refinement_level] using hmax)]
  · intro bk lvl conf cover base hlvl
    simp only [H3o.h3_zones_from_bbox, Bool.false_eq_true, if_false]
    rw [if_pos (by simpa [H3o.H3_default_refinement_level] using hlvl)]

/-- Witness for the C4 amendment, at level 33, a parent of resolution 12
with relative depth 5 (target 17 > 16), and a whole-earth query at level 3. -/
theorem c4_fail_fast_amended_witness :
    ((isea3h_zones_from_bbox ⟨33⟩ false .default (.ok ⟨[]⟩)).2 = .ok ⟨[]⟩
        ∧ FxEvent.execDggrid
            ∈ (isea3h_zones_from_bbox ⟨33⟩ false .default (.ok ⟨[]⟩)).1)
    ∧ H3o.h3_zones_from_parent
          { H3o.bkTest with resolution := fun _ => 12 } ⟨5⟩ (some 0) .default
        = ([], .error .RefinementLevelPlusRelativeDepthLimitReached)
    ∧ H3o.h3_zones_from_bbox H3o.bkTest ⟨3⟩ false .default [] (fun _ => [])
        = ([], .error .RefinementLevelTooHigh) := by
  refine ⟨c4_fail_fast_amended.1 ⟨33⟩ false .default (.ok ⟨[]⟩), ?_, ?_⟩
  · exact c4_fail_fast_amended.2.1 { H3o.bkTest with resolution := fun _ => 12 }
      ⟨5⟩ 0 .default (by norm_num) (by norm_num) (by norm_num)
  · exact c4_fail_fast_amended.2.2 H3o.bkTest ⟨3⟩ .default [] (fun _ => [])
      (by norm_num)

end GeoPlegma

namespace GeoPlegma.H3o

open GeoPlegma.Adapters

/-- Every zone of a successful h3o `to_zones` run comes from `zoneOfCell`
on one of the input cells. -/
theorem to_zonesGo_mem {bk : H3oBackend} {conf : DggrsPortConfig}
    {cells : List Nat} {zs : List Zone}
    (h : to_zonesGo bk conf cells = .ok zs) {z : Zone} (hz : z ∈ zs) :
    ∃ c ∈ cells, zoneOfCell bk conf c = .ok z := by
  induction cells generalizing zs with
  | nil =>
    rw [to_zonesGo] at h
    injection h with h
    subst h
    simp at hz
  | cons c rest ih =>
    rw [to_zonesGo] at h
    cases h1 : zoneOfCell bk conf c with
    | error e => rw [h1] at h; cases h
    | ok z1 =>
      rw [h1] at h
      cases h2 : to_zonesGo bk conf rest with
      | error e => rw [h2] at h; cases h
      | ok zs' =>
        rw [h2] at h
        injection h with h
        subst h
        rcases List.mem_cons.mp hz with rfl | hz'
        · exact ⟨c, by simp, h1⟩
        · obtain ⟨c', hc', hcell⟩ := ih h2 hz'
          exact ⟨c', by simp [hc'], hcell⟩

/-- Field gating of the h3o per-cell zone assembly under the all-off
config: every optional field except possibly the region/vertex-count pair
is absent, and requesting `vertex_count` populates the region as well. -/
theorem zoneOfCell_gating {bk : H3oBackend} {conf : DggrsPortConfig}
    {c : Nat} {z : Zone}
    (hr : conf.region = false) (hc : conf.center = false)
    (hch : conf.children = false) (hn : conf.neighbors = false)
    (ha : conf.area_sqm = false)
    (h : zoneOfCell bk conf c = .ok z) :
    z.center = none ∧ z.children = none ∧ z.neighbors = none
    ∧ z.area_sqm = none
    ∧ (conf.vertex_count = false → z.region = none ∧ z.vertex_count = none)
    ∧ (conf.vertex_count = true →
        z.region.isSome = true ∧ z.vertex_count.isSome = true) := by
  cases hid : Dggrs.ZoneId.new_hex (bk.cellToString c) with
  | error e =>
    simp only [zoneOfCell, hid] at h
    exact Except.noConfusion h
  | ok id =>
    cases hvc : conf.vertex_count <;>
      · simp only [zoneOfCell, hid, hr, hc, hch, hn, ha, hvc, Bool.false_or,
          Bool.or_false, if_false, if_true, Option.map_some, Option.map_none] at h
        injection h with h
        subst h
        simp

end GeoPlegma.H3o

namespace GeoPlegma.Dggal

open GeoPlegma.Adapters

/-- Every zone of a successful dggal `to_zones` run comes from
`zoneOfDggalZone` on one of the input zones. -/
theorem dggal_to_zonesGo_mem {bk : DggalBackend} {conf : DggrsPortConfig}
    {zids : List Nat} {zs : List Zone}
    (h : to_zonesGo bk conf zids = .ok zs) {z : Zone} (hz : z ∈ zs) :
    ∃ c ∈ zids, zoneOfDggalZone bk conf c = .ok z := by
  induction zids generalizing zs with
  | nil =>
    rw [to_zonesGo] at h
    injection h with h
    subst h
    simp at hz
  | cons c rest ih =>
    rw [to_zonesGo] at h
    cases h1 : zoneOfDggalZone bk conf c with
    | error e => rw [h1] at h; cases h
    | ok z1 =>
      rw [h1] at h
      cases h2 : to_zonesGo bk conf rest with
      | error e => rw [h2] at h; cases h
      | ok zs' =>
        rw [h2] at h
        injection h with h
        subst h
        rcases List.mem_cons.mp hz with rfl | hz'
        · exact ⟨c, by simp, h1⟩
        · obtain ⟨c', hc', hcell⟩ := ih h2 hz'
          exact ⟨c', by simp [hc'], hcell⟩

/-- Field gating of the dggal per-zone assembly under the all-off config:
every optional field is absent, with `vertex_count` present exactly when
requested. -/
theorem zoneOfDggalZone_gating {bk : DggalBackend} {conf : DggrsPortConfig}
    {c : Nat} {z : Zone}
    (hr : conf.region = false) (hc : conf.center = false)
    (hch : conf.children = false) (hn : conf.neighbors = false)
    (ha : conf.area_sqm = false)
    (h : zoneOfDggalZone bk conf c = .ok z) :
    z.region = none ∧ z.center = none ∧ z.children = none
    ∧ z.neighbors = none ∧ z.area_sqm = none
    ∧ (conf.vertex_count = false → z.vertex_count = none)
    ∧ (conf.vertex_count = true → z.vertex_count.isSome = true) := by
  cases hvc : conf.vertex_count with
  | false =>
    simp only [zoneOfDggalZone, hr, hc, hch, hn, ha, hvc, Bool.false_or,
      Bool.or_false, if_false, if_true] at h
    injection h with h
    subst h
    simp
  | true =>
    cases hec : edgeCountToU32 (bk.countZoneEdges c) with
    | error e =>
      simp only [zoneOfDggalZone, hr, hc, hch, hn, ha, hvc, Bool.false_or,
        Bool.or_false, if_false, if_true, hec, Except.map] at h
      exact Except.noConfusion h
    | ok w =>
      simp only [zoneOfDggalZone, hr, hc, hch, hn, ha, hvc, Bool.false_or,
        Bool.or_false, if_false, if_true, hec, Except.map] at h
      injection h with h
      subst h
      simp

end GeoPlegma.Dggal

namespace GeoPlegma.Dggrid

open GeoPlegma.Adapters

/-- Field gating of the DGGRID `output::ingest` under the all-off config. -/
theorem output_ingest_gating (aigen : List AigenRec)
    (cm nm : List (Dggrs.ZoneId × List Dggrs.ZoneId))
    (cc : Polygon → Nat) (ga : Polygon → FloatV) (conf : DggrsPortConfig)
    (hr : conf.region = false) (hc : conf.center = false)
    (hch : conf.children = false) (hn : conf.neighbors = false)
    (ha : conf.area_sqm = false) :
    ∀ z ∈ (output_ingest aigen cm nm cc ga conf).zones,
      z.region = none ∧ z.center = none ∧ z.children = none
      ∧ z.neighbors = none ∧ z.area_sqm = none
      ∧ (conf.vertex_count = false → z.vertex_count = none) := by
  intro z hz
  simp only [output_ingest, hr, hc, hch, hn, ha, if_false, List.mem_map] at hz
  obtain ⟨r, hmem, rfl⟩ := hz
  refine ⟨rfl, rfl, by simp [lookupIds], by simp [lookupIds], rfl, fun hv => by simp [hv]⟩

end GeoPlegma.Dggrid

namespace GeoPlegma

open GeoPlegma.Adapters GeoPlegma.Dggrid

/-- C5 counterexample: with `region=false, center=false, children=false,
neighbors=false, area_sqm=false` and `vertex_count=true`, the h3o
`to_zones` returns a zone whose `region` is populated (it is computed for
the vertex count and never dropped), contradicting the claim that region
is absent under that config. -/
theorem c5_counterexample :
    (H3o.to_zones H3o.bkTest [0]
        ⟨false, false, true, false, false, false, false⟩).map
      (fun zs => zs.zones.map fun z =>
        (z.region.isSome, z.center.isSome, z.children.isSome,
         z.neighbors.isSome, z.area_sqm.isSome, z.vertex_count))
      = .ok [(true, false, false, false, false, some 4)] := by
  rfl

/-- C5 amended: under `region=false, center=false, children=false,
neighbors=false, area_sqm=false`, every returned zone of each of the three
adapters carries only its identifier, plus `vertex_count` when that is
requested independently — except that the h3o adapter then also populates
`region` (the polygon it computed for the count); with `vertex_count`
false as well, all three adapters return identifier-only zones. -/
theorem c5_config_gating_amended :
    (∀ (bk : H3o.H3oBackend) (cells : List Nat) (conf : DggrsPortConfig)
        (zs : Zones),
        conf.region = false → conf.center = false → conf.children = false →
        conf.neighbors = false → conf.area_sqm = false →
        H3o.to_zones bk cells conf = .ok zs →
        ∀ z ∈ zs.zones, z.center = none ∧ z.children = none
          ∧ z.neighbors = none ∧ z.area_sqm = none
          ∧ (conf.vertex_count = false → z.region = none ∧ z.vertex_count = none)
          ∧ (conf.vertex_count = true →
              z.region.isSome = true ∧ z.vertex_count.isSome = true))
    ∧ (∀ (bk : Dggal.DggalBackend) (zids : List Nat) (conf : DggrsPortConfig)
        (zs : Zones),
        conf.region = false → conf.center = false → conf.children = false →
        conf.neighbors = false → conf.area_sqm = false →
        Dggal.to_zones bk zids conf = .ok zs →
        ∀ z ∈ zs.zones, z.region = none ∧ z.center = none ∧ z.children = none
          ∧ z.neighbors = none ∧ z.area_sqm = none
          ∧ (conf.vertex_count = false → z.vertex_count = none)
          ∧ (conf.vertex_count = true → z.vertex_count.isSome = true))
    ∧ (∀ (aigen : List AigenRec) (cm nm : List (Dggrs.ZoneId × List Dggrs.ZoneId))
        (cc : Polygon → Nat) (ga : Polygon → FloatV) (conf : DggrsPortConfig),
        conf.region = false → conf.center = false → conf.children = false →
        conf.neighbors = false → conf.area_sqm = false →
        ∀ z ∈ (output_ingest aigen cm nm cc ga conf).zones,
          z.region = none ∧ z.center = none ∧ z.children = none
          ∧ z.neighbors = none ∧ z.area_sqm = none
          ∧ (conf.vertex_count = false → z.vertex_count = none)) := by
  refine ⟨?_, ?_, ?_⟩
  · intro bk cells conf zs h1 h2 h3 h4 h5 hok z hz
    rw [H3o.to_zones] at hok
    cases hgo : H3o.to_zonesGo bk conf cells with
    | error e => rw [hgo] at hok; cases hok
    | ok l =>
      rw [hgo] at hok
      injection hok with hok
      subst hok
      obtain ⟨c, -, hcell⟩ := H3o.to_zonesGo_mem hgo hz
      exact H3o.zoneOfCell_gating h1 h2 h3 h4 h5 hcell
  · intro bk zids conf zs h1 h2 h3 h4 h5 hok z hz
    rw [Dggal.to_zones] at hok
    cases hgo : Dggal.to_zonesGo bk conf zids with
    | error e => rw [hgo] at hok; cases hok
    | ok l =>
      rw [hgo] at hok
      injection hok with hok
      subst hok
      obtain ⟨c, -, hcell⟩ := Dggal.dggal_to_zonesGo_mem hgo hz
      exact Dggal.zoneOfDggalZone_gating h1 h2 h3 h4 h5 hcell
  · intro aigen cm nm cc ga conf h1 h2 h3 h4 h5
    exact output_ingest_gating aigen cm nm cc ga conf h1 h2 h3 h4 h5

/-- Witness for the C5 amendment: a one-cell h3o run and a one-zone dggal
run under the all-off config, with every optional field checked absent on
the concrete returned zone. -/
theorem c5_config_gating_amended_witness :
    ∀ z ∈ (Zones.mk
        [{ id := .HexId ⟨"8928308280fffff0".toList⟩, region := none,
           center := none, vertex_count := none, children := none,
           neighbors := none, area_sqm := none }]).zones,
      z.center = none ∧ z.children = none ∧ z.neighbors = none
      ∧ z.area_sqm = none
      ∧ ((false : Bool) = false → z.region = none ∧ z.vertex_count = none)
      ∧ ((false : Bool) = true →
          z.region.isSome = true ∧ z.vertex_count.isSome = true) := by
  exact c5_config_gating_amended.1 H3o.bkTest [0]
    ⟨false, false, false, false, false, false, false⟩ _
    rfl rfl rfl rfl rfl (by decide)

end GeoPlegma

namespace GeoPlegma

open GeoPlegma.Dggrs GeoPlegma.Dggrid GeoPlegma.Adapters

/-- C6: the claim says no derived temp file survives any external-process
call; but on the success path of `Isea3hImpl::zone_from_id` the written
id-input file (`<token>.txt`) is never removed — the cleanup call receives
only the other five paths — and on a parse failure the `?` returns before
any cleanup, so even the metafile survives. `[gen, chd, nbr]` is the set
of output files the external tool creates. -/
theorem c6_zone_from_id_leak :
    TempFile.input ∈ filesAfter [.gen, .chd, .nbr]
        (isea3h_zone_from_id (.HexId ⟨"2000000000000000".toList⟩) .default
          (.ok ⟨[]⟩)).1
    ∧ TempFile.meta ∈ filesAfter [.gen, .chd, .nbr]
        (isea3h_zone_from_id (.HexId ⟨"2000000000000000".toList⟩) .default
          (.error (.Dggrid .InvalidZ3Format))).1
    ∧ TempFile.input ∈ filesAfter [.gen, .chd, .nbr]
        (isea3h_zone_from_id (.HexId ⟨"2000000000000000".toList⟩) .default
          (.error (.Dggrid .InvalidZ3Format))).1 := by
  exact ⟨by decide, by decide, by decide⟩

/-- C7 counterexample: the claim says `HexString::new` succeeds exactly on
1 to 16 hex characters, but the api version accepts the empty string and
the dggrs-crate version rejects every string shorter than 16 characters
(here the single hex digit `"a"`). -/
theorem c7_counterexample :
    (Api.HexString.new []).isOk = true
    ∧ (Dggrs.HexString.new ['a']).isOk = false := by
  exact ⟨by decide, by decide⟩

/-- C7 amended: the api `HexString::new` succeeds exactly when the input
has at most 16 characters, all ASCII hex digits (the empty string
included); the dggrs-crate `HexString::new` succeeds exactly when the
input is exactly 16 ASCII hex digits; both fail with a format error
otherwise. -/
theorem c7_hexstring_validation_amended (s : List Char) :
    (Api.HexString.new s).isOk
        = (decide (s.length ≤ 16) && s.all isAsciiHexdigit)
    ∧ (Dggrs.HexString.new s).isOk
        = (decide (s.length = 16) && s.all isAsciiHexdigit) := by
  constructor
  · rw [Api.HexString.new]
    by_cases h : s.length ≤ 16 ∧ s.all isAsciiHexdigit = true
    · rw [if_pos h]
      simp [Except.isOk, Except.toBool, h.1, h.2]
    · rw [if_neg h]
      rcases not_and_or.mp h with h' | h' <;>
        simp_all [Except.isOk, Except.toBool]
  · rw [Dggrs.HexString.new]
    by_cases h : s.length = 16 ∧ s.all isAsciiHexdigit = true
    · rw [if_pos h]
      simp [Except.isOk, Except.toBool, h.1, h.2]
    · rw [if_neg h]
      rcases not_and_or.mp h with h' | h' <;>
        simp_all [Except.isOk, Except.toBool]

/-- C8 counterexample: both addition operands are valid (non-negative), yet
`RefinementLevel::add` does not saturate: at `i32::MAX + 1` the wrapped sum
is `i32::MIN`, and `add` returns a below-zero error instead of a
`RefinementLevel` equal to the saturated sum. -/
theorem c8_counterexample :
    Api.RefinementLevel.new 2147483647 = .ok ⟨2147483647⟩
    ∧ Api.RelativeDepth.new 1 = .ok ⟨1⟩
    ∧ Api.RefinementLevel.add ⟨2147483647⟩ ⟨1⟩
        = .error (.DepthBelowZero (-2147483648)) := by
  exact ⟨by decide, by decide, by decide⟩

/-- C8 amended: for non-negative `l` and `d`, `l.add(d)` (api and dggrs
versions alike) returns `Ok` with value `l.get() + d.get()` exactly when
that sum fits `i32`; when the sum exceeds `i32::MAX`, the `i32` addition
wraps (it does not saturate) to a negative value and `add` returns a
below-zero error carrying the wrapped sum. -/
theorem c8_add_amended (lv dv : Int)
    (h1 : 0 ≤ lv) (h2 : 0 ≤ dv) (h3 : lv < 2 ^ 31) (h4 : dv < 2 ^ 31) :
    (lv + dv < 2 ^ 31 →
      Api.RefinementLevel.add ⟨lv⟩ ⟨dv⟩ = .ok ⟨lv + dv⟩
      ∧ Dggrs.RefinementLevel.add ⟨lv⟩ ⟨dv⟩ = .ok ⟨lv + dv⟩)
    ∧ (2 ^ 31 ≤ lv + dv →
      Api.RefinementLevel.add ⟨lv⟩ ⟨dv⟩
          = .error (.DepthBelowZero (lv + dv - 2 ^ 32))
      ∧ Dggrs.RefinementLevel.add ⟨lv⟩ ⟨dv⟩
          = .error (.DepthBelowZero (lv + dv - 2 ^ 32))) := by
  constructor
  · intro h5
    have hw : Api.wrap32 (lv + dv) = lv + dv := wrap32_eq_self (by omega) h5
    constructor
    · rw [Api.RefinementLevel.add]
      show Api.RefinementLevel.new (Api.wrap32 (lv + dv)) = _
      rw [hw, Api.RefinementLevel.new, if_neg (by omega)]
    · rw [Dggrs.RefinementLevel.add]
      show Dggrs.RefinementLevel.new (Api.wrap32 (lv + dv)) = _
      rw [hw, Dggrs.RefinementLevel.new, if_neg (by omega)]
  · intro h5
    have hw : Api.wrap32 (lv + dv) = lv + dv - 2 ^ 32 :=
      wrap32_eq_sub h5 (by omega)
    constructor
    · rw [Api.RefinementLevel.add]
      show Api.RefinementLevel.new (Api.wrap32 (lv + dv)) = _
      rw [hw, Api.RefinementLevel.new, if_pos (by omega)]
    · rw [Dggrs.RefinementLevel.add]
      show Dggrs.RefinementLevel.new (Api.wrap32 (lv + dv)) = _
      rw [hw, Dggrs.RefinementLevel.new, if_pos (by omega)]

/-- Witness for the C8 amendment at `2147483646 + 1` (fits) — applying the
amended theorem with its hypotheses discharged. -/
theorem c8_add_amended_witness :
    Api.RefinementLevel.add ⟨2147483646⟩ ⟨1⟩ = .ok ⟨2147483647⟩
    ∧ Dggrs.RefinementLevel.add ⟨2147483646⟩ ⟨1⟩ = .ok ⟨2147483647⟩ := by
  exact (c8_add_amended 2147483646 1 (by norm_num) (by norm_num)
    (by norm_num) (by norm_num)).1 (by norm_num)

/-- C9: `RefinementLevel::new`, `RelativeDepth::new` and the `TryFrom<i32>`
conversions (which delegate to `new`) fail exactly on negative input,
while the public `new_const` constructors perform no validation: for every
`i32` value v — negative ones included — `new_const(v).get() = v`, so
non-negativity is not enforced by every public constructor. -/
theorem c9_constructor_validation (v : Int) :
    ((Api.RefinementLevel.new v).isOk = true ↔ 0 ≤ v)
    ∧ Api.RefinementLevel.try_from v = Api.RefinementLevel.new v
    ∧ (Api.RefinementLevel.new_const v).get = v
    ∧ ((Api.RelativeDepth.new v).isOk = true ↔ 0 ≤ v)
    ∧ Api.RelativeDepth.try_from v = Api.RelativeDepth.new v
    ∧ (Api.RelativeDepth.new_const v).get = v := by
  refine ⟨?_, rfl, rfl, ?_, rfl, rfl⟩
  · rw [Api.RefinementLevel.new]
    by_cases h : v < 0
    · rw [if_pos h]
      simp only [Except.isOk, Except.toBool]
      constructor
      · intro he; cases he
      · omega
    · rw [if_neg h]
      simp only [Except.isOk, Except.toBool, true_iff]
      omega
  · rw [Api.RelativeDepth.new]
    by_cases h : v < 0
    · rw [if_pos h]
      simp only [Except.isOk, Except.toBool]
      constructor
      · intro he; cases he
      · omega
    · rw [if_neg h]
      simp only [Except.isOk, Except.toBool, true_iff]
      omega

/-- C10: for every non-empty input vertex list, the polygon builders
(h3o `boundary_to_polygon` and dggal `to_polygon`) return a polygon whose
exterior ring is closed — its first coordinate equals its last — and when
the mapped input ring is not already closed, the exterior is the input
ring with a copy of its first vertex appended. -/
theorem c10_polygon_ring_closed (b : List H3o.LatLng) (p : List Dggal.GeoPoint)
    (hb : b ≠ []) (hp : p ≠ []) :
    ((H3o.boundary_to_polygon b).exterior.head?
        = (H3o.boundary_to_polygon b).exterior.getLast?
      ∧ (H3o.boundary_to_polygon b).exterior ≠ []
      ∧ (∀ cb : List Coord, cb = b.map (fun ll => ⟨ll.lng, ll.lat⟩) →
          cb.head? ≠ cb.getLast? →
          (H3o.boundary_to_polygon b).exterior = cb ++ [cb.headI]))
    ∧ ((Dggal.to_polygon p).exterior.head? = (Dggal.to_polygon p).exterior.getLast?
      ∧ (Dggal.to_polygon p).exterior ≠ []
      ∧ (∀ cp : List Coord,
          cp = p.map (fun pt => ⟨Dggal.to_degrees pt.lon, Dggal.to_degrees pt.lat⟩) →
          cp.head? ≠ cp.getLast? →
          (Dggal.to_polygon p).exterior = cp ++ [cp.headI])) := by
  constructor
  · have hne : b.map (fun ll => (⟨ll.lng, ll.lat⟩ : Coord)) ≠ [] := by
      simpa using hb
    obtain ⟨c0, ct, he⟩ :=
      List.exists_cons_of_ne_nil hne
    by_cases hcl : (b.map fun ll => (⟨ll.lng, ll.lat⟩ : Coord)).head?
        = (b.map fun ll => (⟨ll.lng, ll.lat⟩ : Coord)).getLast?
    · have hpoly : (H3o.boundary_to_polygon b).exterior
          = b.map fun ll => (⟨ll.lng, ll.lat⟩ : Coord) := by
        rw [H3o.boundary_to_polygon, if_neg (by simpa using hcl)]
      refine ⟨by rw [hpoly]; exact hcl, by rw [hpoly]; exact hne,
        fun cb hcb hne2 => absurd (hcb ▸ hcl) hne2⟩
    · have hhead : (b.map fun ll => (⟨ll.lng, ll.lat⟩ : Coord)).head? = some c0 := by
        rw [he]; rfl
      have hpoly : (H3o.boundary_to_polygon b).exterior
          = (b.map fun ll => (⟨ll.lng, ll.lat⟩ : Coord)) ++ [c0] := by
        rw [H3o.boundary_to_polygon, if_pos (by simpa using hcl), hhead]
      refine ⟨?_, by simp [hpoly], ?_⟩
      · rw [hpoly, List.getLast?_concat, he]
        rfl
      · intro cb hcb hne2
        subst hcb
        rw [hpoly, he]
        rfl
  · have hne : p.map (fun pt =>
        (⟨Dggal.to_degrees pt.lon, Dggal.to_degrees pt.lat⟩ : Coord)) ≠ [] := by
      simpa using hp
    obtain ⟨c0, ct, he⟩ := List.exists_cons_of_ne_nil hne
    by_cases hcl : (p.map fun pt =>
          (⟨Dggal.to_degrees pt.lon, Dggal.to_degrees pt.lat⟩ : Coord)).head?
        = (p.map fun pt =>
          (⟨Dggal.to_degrees pt.lon, Dggal.to_degrees pt.lat⟩ : Coord)).getLast?
    · have hpoly : (Dggal.to_polygon p).exterior
          = p.map fun pt => (⟨Dggal.to_degrees pt.lon, Dggal.to_degrees pt.lat⟩ : Coord) := by
        rw [Dggal.to_polygon, if_neg (by simpa using hcl)]
      refine ⟨by rw [hpoly]; exact hcl, by rw [hpoly]; exact hne,
        fun cp hcp hne2 => absurd (hcp ▸ hcl) hne2⟩
    · have hpoly : (Dggal.to_polygon p).exterior
          = (p.map fun pt => (⟨Dggal.to_degrees pt.lon, Dggal.to_degrees pt.lat⟩ : Coord))
            ++ [(p.map fun pt =>
              (⟨Dggal.to_degrees pt.lon, Dggal.to_degrees pt.lat⟩ : Coord)).headI] := by
        rw [Dggal.to_polygon, if_pos (by simpa using hcl)]
      refine ⟨?_, by simp [hpoly, he], ?_⟩
      · rw [hpoly, List.getLast?_concat, he]
        rfl
      · intro cp hcp hne2
        subst hcp
        exact hpoly

/-- Witness for C10 at a two-vertex boundary and a two-vertex DGGAL ring. -/
theorem c10_polygon_ring_closed_witness :
    (H3o.boundary_to_polygon [⟨0, 0⟩, ⟨0, 1⟩]).exterior.head?
        = (H3o.boundary_to_polygon [⟨0, 0⟩, ⟨0, 1⟩]).exterior.getLast?
    ∧ (Dggal.to_polygon [⟨0, 0⟩, ⟨1, 0⟩]).exterior.head?
        = (Dggal.to_polygon [⟨0, 0⟩, ⟨1, 0⟩]).exterior.getLast? := by
  exact ⟨(c10_polygon_ring_closed [⟨0, 0⟩, ⟨0, 1⟩] [⟨0, 0⟩, ⟨1, 0⟩]
      (by decide) (by decide)).1.1,
    (c10_polygon_ring_closed [⟨0, 0⟩, ⟨0, 1⟩] [⟨0, 0⟩, ⟨1, 0⟩]
      (by decide) (by decide)).2.1⟩

end GeoPlegma
